import Mathlib

/-!
# Verification of the credit-card payment report matcher

A shallow embedding of `cc_payment_report.py`: the Gregorian date window
calculator (`date_to_int` / `int_to_date` / `computeWindow`), the ledger
data model (accounts, transactions, payees, schedule rules), the four
payment-matcher paths (`find_payment_in_range`,
`find_scheduled_payment_in_range`, `find_payee_payment_in_range`,
`find_scheduled_payee_payment_in_range`) and the report classifier of
`generate_report`.  Integer ledger amounts are embedded as `Int`
(minor units), displayed amounts as `Rat` (the Python code divides by
`100.0`); YYYYMMDD date keys are `Int`.  Schedule-rule payloads are
embedded post-JSON-parsing: `Except Unit (List Cond)` is `error` exactly
when `json.loads` (or the subsequent dictionary traversal) would raise,
which the Python code catches by skipping the rule.
-/

/-! ## Calendar dates and the YYYYMMDD encoding -/

/-- A Gregorian calendar date (year, month, day). -/
structure Date where
  year : Nat
  month : Nat
  day : Nat
deriving DecidableEq

/-- Gregorian leap-year rule, as implemented by Python's `datetime`. -/
def isLeap (y : Nat) : Bool :=
  y % 4 == 0 && (y % 100 != 0 || y % 400 == 0)

/-- Number of days in a month of a given year (Gregorian). -/
def daysInMonth (y m : Nat) : Nat :=
  if m = 2 then (if isLeap y then 29 else 28)
  else if m = 4 ∨ m = 6 ∨ m = 9 ∨ m = 11 then 30
  else 31

/-- Validity of a calendar date, matching what `datetime` accepts. -/
def Date.Valid (d : Date) : Prop :=
  1 ≤ d.month ∧ d.month ≤ 12 ∧ 1 ≤ d.day ∧ d.day ≤ daysInMonth d.year d.month

instance (d : Date) : Decidable d.Valid := by
  unfold Date.Valid
  exact inferInstance

/-- The calendar successor of a date: one step of `timedelta(days=1)`. -/
def nextDay (d : Date) : Date :=
  if d.day < daysInMonth d.year d.month then ⟨d.year, d.month, d.day + 1⟩
  else if d.month < 12 then ⟨d.year, d.month + 1, 1⟩
  else ⟨d.year + 1, 1, 1⟩

/-- The calendar predecessor of a date: one step of `timedelta(days=-1)`. -/
def prevDay (d : Date) : Date :=
  if 1 < d.day then ⟨d.year, d.month, d.day - 1⟩
  else if 1 < d.month then ⟨d.year, d.month - 1, daysInMonth d.year (d.month - 1)⟩
  else ⟨d.year - 1, 12, 31⟩

/-- `date_to_int`: `int(date_obj.strftime('%Y%m%d'))`, i.e. the integer
`year*10000 + month*100 + day` (months and days are zero-padded to two
digits so the concatenation is numerically this sum). -/
def date_to_int (d : Date) : Int :=
  (d.year : Int) * 10000 + (d.month : Int) * 100 + (d.day : Int)

/-- `int_to_date`: `datetime.strptime(str(date_int), '%Y%m%d')` on the
eight-digit YYYYMMDD domain: the key must have exactly eight digits
(four-digit year) and denote a valid calendar date, otherwise parsing
raises, embedded as `none`. -/
def int_to_date (n : Int) : Option Date :=
  if 10000000 ≤ n ∧ n < 100000000 then
    let y := (n / 10000).toNat
    let m := ((n / 100) % 100).toNat
    let d := (n % 100).toNat
    if (Date.mk y m d).Valid then some ⟨y, m, d⟩ else none
  else none

/-- The window calculator of `generate_report` (lines 375-383):
`start = today - timedelta(weeks=2)`, `end = today + timedelta(weeks=2)`,
i.e. fourteen calendar days each way, all three encoded with
`date_to_int`.  Returns `(start_key, end_key, today_key)`. -/
def computeWindow (today : Date) : Int × Int × Int :=
  (date_to_int (prevDay^[14] today), date_to_int (nextDay^[14] today), date_to_int today)

/-! ## The ledger data model -/

/-- An account row as exposed by the store: id, display name (nullable),
current balance in signed minor units (nullable). -/
structure Account where
  id : String
  name : Option String
  balance_current : Option Int
deriving DecidableEq

/-- A transaction row: owning account, YYYYMMDD date key, signed amount in
minor units, optional payee reference, optional note, deletion flag and
split-parent flag (integer columns, `0` = false). -/
structure Transaction where
  acct : String
  date : Int
  amount : Int
  payee_id : Option String
  notes : Option String
  tombstone : Nat
  is_parent : Nat
deriving DecidableEq

/-- A payee row: id, display name (nullable), optional transfer-account
reference and deletion flag. -/
structure Payee where
  id : String
  name : Option String
  transfer_acct : Option String
  tombstone : Nat
deriving DecidableEq

/-- A JSON scalar as it appears in a rule condition/action `value` slot:
a string, an integer, or some other JSON value (null/boolean/array/object),
which the matcher never treats as a date, amount or id. -/
inductive JVal where
  | jstr (s : String)
  | jint (z : Int)
  | jother
deriving DecidableEq

/-- One parsed rule condition: `cond.get('field')` and `cond.get('value')`
(`none` when the key is missing, its value is JSON null, or — for
`field` — not a string). -/
structure Cond where
  field : Option String
  value : Option JVal
deriving DecidableEq

/-- One parsed rule action: `action.get('op')`, `action.get('field')` and
`action.get('value')` (the `value` slot is only read for set-notes
actions, where it is a string). -/
structure RuleAction where
  op : Option String
  field : Option String
  value : Option String
deriving DecidableEq

instance {ε α : Type _} [DecidableEq ε] [DecidableEq α] : DecidableEq (Except ε α) := fun a b =>
  match a, b with
  | Except.error e, Except.error f =>
    if h : e = f then isTrue (by simp [h]) else isFalse (by simp [h])
  | Except.error _, Except.ok _ => isFalse (by simp)
  | Except.ok _, Except.error _ => isFalse (by simp)
  | Except.ok x, Except.ok y =>
    if h : x = y then isTrue (by simp [h]) else isFalse (by simp [h])

/-- A schedule rule row.  `conditions`/`actions` hold the result of
`json.loads` on the stored payload: `Except.error ()` when parsing (or
traversing the parsed value as a list of dictionaries) would raise —
which the matcher catches, skipping the rule. -/
structure Rule where
  tombstone : Nat
  conditions : Except Unit (List Cond)
  actions : Except Unit (List RuleAction)
deriving DecidableEq

/-- The store snapshot visible through `session.query(...)`: rows are
returned in store order, which `filter` preserves. -/
structure Session where
  transactions : List Transaction
  payees : List Payee
  rules : List Rule
deriving DecidableEq

/-- Derived, in-memory payment record (the `PaymentInfo` dataclass):
YYYYMMDD date key, display amount (ledger amount divided by 100),
optional note, and the posted/scheduled flag. -/
structure PaymentInfo where
  date : Int
  amount : Rat
  notes : Option String
  is_scheduled : Bool
deriving DecidableEq

/-- The `AccountReport` dataclass. -/
structure AccountReport where
  account_name : Option String
  has_payment : Bool
  payment_info : Option PaymentInfo
deriving DecidableEq

/-- The `PayeeReport` dataclass. -/
structure PayeeReport where
  payee_name : String
  has_payment : Bool
  payment_info : Option PaymentInfo
deriving DecidableEq

/-! ## Account selector -/

/-- The four-character credit-card marker, exactly the string literal at
line 52 of the source (U+F8FF, U+00FC, U+00ED, U+2265). -/
def ccMarker : String := "\uF8FF\u00FC\u00ED\u2265"

/-- `is_credit_card_account`: `account.name and account.name.startswith(marker)`
(a `None` or empty name is falsy and never matches).  `startswith` is a
prefix test on the code points of the name. -/
def is_credit_card_account (account : Account) : Bool :=
  match account.name with
  | none => false
  | some n => !(n == "") && ccMarker.data.isPrefixOf n.data

/-! ## Posted-transaction matcher for accounts -/

/-- The SQL filter of the account transaction query (lines 82-90):
owning account, date window, non-deleted, non-split-parent. -/
def txPrefilter (account : Account) (startI endI : Int) (t : Transaction) : Bool :=
  t.acct == account.id && decide (startI ≤ t.date) && decide (t.date ≤ endI) &&
    t.tombstone == 0 && t.is_parent == 0

/-- `session.query(Payees).filter(Payees.id == pid).first()` — note: no
tombstone filter here. -/
def lookupPayee (s : Session) (pid : String) : Option Payee :=
  s.payees.find? (fun p => p.id == pid)

/-- The per-transaction transfer test of the loop at lines 93-116:
a truthy `payee_id`, a payee found for it, a truthy `transfer_acct`
different from this account's id, and a strictly positive amount. -/
def txIsTransferPayment (account : Account) (s : Session) (t : Transaction) : Bool :=
  match t.payee_id with
  | none => false
  | some pid =>
    if pid == "" then false
    else
      match lookupPayee s pid with
      | none => false
      | some payee =>
        match payee.transfer_acct with
        | none => false
        | some ta => !(ta == "") && !(ta == account.id) && decide (0 < t.amount)

/-- Combined qualification of one transaction for the posted-payment
path: the query filter together with the loop's transfer test. -/
def txQualifies (account : Account) (s : Session) (startI endI : Int) (t : Transaction) : Bool :=
  txPrefilter account startI endI t && txIsTransferPayment account s t

/-- `find_payment_in_range` (lines 66-118): first transaction of the
filtered query satisfying the transfer test, turned into a `PaymentInfo`
with amount `trans.amount / 100.0`. -/
def find_payment_in_range (account : Account) (s : Session) (startI endI : Int) :
    Option PaymentInfo :=
  ((s.transactions.filter (txPrefilter account startI endI)).find?
      (txIsTransferPayment account s)).map
    (fun t => ⟨t.date, (t.amount : Rat) / 100, t.notes, false⟩)

/-! ## Schedule-rule parsing (shared by both scheduled paths) -/

/-- Accumulator for `pyInt`: a nonempty run of ASCII digits, most
significant first. -/
def digitsValAux (acc : Nat) : List Char → Option Nat
  | [] => some acc
  | c :: rest =>
    if c.isDigit then digitsValAux (acc * 10 + (c.toNat - 48)) rest else none

/-- Python's `int(str)` on a code-point list: an optional sign followed by
a nonempty run of ASCII digits; anything else raises `ValueError`,
embedded as `none`. -/
def pyInt (cs : List Char) : Option Int :=
  match cs with
  | [] => none
  | c :: rest =>
    if c == '-' then (match rest with | [] => none | _ => (digitsValAux 0 rest).map (fun n => -(n : Int)))
    else if c == '+' then (match rest with | [] => none | _ => (digitsValAux 0 rest).map (fun n => (n : Int)))
    else (digitsValAux 0 cs).map (fun n => (n : Int))

/-- One assignment step of the `field == 'date'` branch (lines 162-170):
a string value has its dashes removed (`value.replace('-', '')`) and is
parsed with `int(...)` (failure leaves the previous value), an integer
value is taken as is, anything else leaves the previous value. -/
def dateUpdate (old : Option Int) (v : Option JVal) : Option Int :=
  match v with
  | some (JVal.jstr s) =>
    match pyInt (s.data.filter (fun c => !(c == '-'))) with
    | some n => some n
    | none => old
  | some (JVal.jint z) => some z
  | _ => old

/-- The condition-extraction loop (lines 158-176 and 306-323): scans the
condition list in order, each matching condition overwriting the
previously extracted value.  `key` is `"acct"` in the account variant and
`"description"` in the payee variant; the two loops are otherwise
character-for-character identical.  Returns `(rule_date, rule_amount,
rule_target)`. -/
def scanConds (key : String) : List Cond → Option Int × Option JVal × Option JVal →
    Option Int × Option JVal × Option JVal
  | [], st => st
  | c :: rest, (d, a, v) =>
    if c.field == some "date" then scanConds key rest (dateUpdate d c.value, a, v)
    else if c.field == some "amount" then scanConds key rest (d, c.value, v)
    else if c.field == some key then scanConds key rest (d, a, c.value)
    else scanConds key rest (d, a, v)

/-- The notes-extraction loop over actions (lines 192-195 and 337-340):
the last `set`/`notes` action wins. -/
def findNotes (acts : List RuleAction) : Option String :=
  acts.foldl
    (fun n act => if act.op == some "set" && act.field == some "notes" then act.value else n)
    none

/-- Evaluation of one rule by `find_scheduled_payment_in_range`
(the body of the `try` block, lines 149-206).  `none` covers every way
the rule fails to match: malformed conditions or actions payload
(exception, rule skipped), failed criteria, missing link-schedule
action, non-positive amount, or a non-integer amount value (whose
comparison with `0` raises, skipping the rule). -/
def evalScheduledRule (account : Account) (startI endI todayI : Int) (r : Rule) :
    Option PaymentInfo :=
  match r.conditions with
  | Except.error _ => none
  | Except.ok conds =>
    match scanConds "acct" conds (none, none, none) with
    | (ruleDate, ruleAmount, ruleAcct) =>
    if (match ruleAcct with
        | some (JVal.jstr sid) => sid == account.id
        | _ => false) &&
       ruleDate.isSome && ruleAmount.isSome &&
       (match ruleDate with
        | some d => decide (startI ≤ d) && decide (d ≤ endI) && decide (todayI < d)
        | none => false) &&
       (match ruleAmount with
        | some (JVal.jint z) => decide (z ≠ 0)
        | some _ => true
        | none => false) then
      match r.actions with
      | Except.error _ => none
      | Except.ok acts =>
        let hasSchedule := acts.any (fun a => a.op == some "link-schedule")
        match ruleAmount with
        | some (JVal.jint z) =>
          if hasSchedule && decide (0 < z) then
            some ⟨ruleDate.getD 0, (z : Rat) / 100, findNotes acts, true⟩
          else none
        | _ => none
    else none

/-- `find_scheduled_payment_in_range` (lines 121-208): scan the
non-deleted rules in store order, returning the first match; skipped or
non-matching rules contribute nothing. -/
def find_scheduled_payment_in_range (account : Account) (s : Session)
    (startI endI todayI : Int) : Option PaymentInfo :=
  (s.rules.filter (fun r => r.tombstone == 0)).findSome?
    (evalScheduledRule account startI endI todayI)

/-! ## Payee resolution and the payee matchers -/

/-- Substring test on character lists: Python's `needle in hay`. -/
def listContains (needle : List Char) : List Char → Bool
  | [] => needle.isEmpty
  | c :: rest => needle.isPrefixOf (c :: rest) || listContains needle rest

/-- Python `str.lower()` on the code points of a string (ASCII folding,
which is what the payee names here exercise). -/
def pyLower (s : String) : List Char :=
  s.data.map Char.toLower

/-- The payee-resolution loop (lines 227-238 and 280-291): first
non-deleted payee whose (truthy) name contains the target name,
case-insensitively (`payee_name.lower() in p.name.lower()`). -/
def resolvePayee (s : Session) (payee_name : String) : Option Payee :=
  (s.payees.filter (fun p => p.tombstone == 0)).find?
    (fun p =>
      match p.name with
      | none => false
      | some n => !(n == "") && listContains (pyLower payee_name) (pyLower n))

/-- The SQL filter of the payee transaction query (lines 241-250):
addressed to the payee, inside the window, strictly negative amount,
non-deleted, non-split-parent. -/
def payeeTxCandidates (pid : String) (s : Session) (startI endI : Int) : List Transaction :=
  s.transactions.filter
    (fun t => t.payee_id == some pid && decide (startI ≤ t.date) && decide (t.date ≤ endI) &&
      decide (t.amount < 0) && t.tombstone == 0 && t.is_parent == 0)

/-- `find_payee_payment_in_range` (lines 211-262): resolve the payee,
sort its candidate transactions by date descending
(`order_by(Transactions.date.desc())`), and take the first; the display
amount is the absolute value of `trans.amount / 100.0`. -/
def find_payee_payment_in_range (payee_name : String) (s : Session) (startI endI : Int) :
    Option PaymentInfo :=
  match resolvePayee s payee_name with
  | none => none
  | some mp =>
    match (payeeTxCandidates mp.id s startI endI).mergeSort
        (fun a b => decide (b.date ≤ a.date)) with
    | [] => none
    | t :: _ => some ⟨t.date, abs ((t.amount : Rat) / 100), t.notes, false⟩

/-- Evaluation of one rule by `find_scheduled_payee_payment_in_range`
(the `try` block, lines 299-350): like the account variant but keyed on
the `description` condition equalling the resolved payee id, requiring a
strictly negative amount, and reporting its absolute value. -/
def evalScheduledPayeeRule (mp : Payee) (startI endI todayI : Int) (r : Rule) :
    Option PaymentInfo :=
  match r.conditions with
  | Except.error _ => none
  | Except.ok conds =>
    match scanConds "description" conds (none, none, none) with
    | (ruleDate, ruleAmount, ruleDescription) =>
    if (match ruleDescription with
        | some (JVal.jstr sid) => sid == mp.id
        | _ => false) &&
       ruleDate.isSome && ruleAmount.isSome &&
       (match ruleDate with
        | some d => decide (startI ≤ d) && decide (d ≤ endI) && decide (todayI < d)
        | none => false) &&
       (match ruleAmount with
        | some (JVal.jint z) => decide (z ≠ 0)
        | some _ => true
        | none => false) then
      match r.actions with
      | Except.error _ => none
      | Except.ok acts =>
        let hasSchedule := acts.any (fun a => a.op == some "link-schedule")
        match ruleAmount with
        | some (JVal.jint z) =>
          if hasSchedule && decide (z < 0) then
            some ⟨ruleDate.getD 0, abs ((z : Rat) / 100), findNotes acts, true⟩
          else none
        | _ => none
    else none

/-- `find_scheduled_payee_payment_in_range` (lines 265-352). -/
def find_scheduled_payee_payment_in_range (payee_name : String) (s : Session)
    (startI endI todayI : Int) : Option PaymentInfo :=
  match resolvePayee s payee_name with
  | none => none
  | some mp =>
    (s.rules.filter (fun r => r.tombstone == 0)).findSome?
      (evalScheduledPayeeRule mp startI endI todayI)

/-! ## The per-target matcher and the report classifier -/

/-- The account branch of `generate_report` (lines 405-420): posted path
first, scheduled path only if it returned nothing (`if not payment`; a
`PaymentInfo` instance is always truthy). -/
def accountPayment (account : Account) (s : Session) (startI endI todayI : Int) :
    Option PaymentInfo :=
  match find_payment_in_range account s startI endI with
  | some p => some p
  | none => find_scheduled_payment_in_range account s startI endI todayI

/-- The payee branch of `generate_report` (lines 441-456). -/
def payeePayment (payee_name : String) (s : Session) (startI endI todayI : Int) :
    Option PaymentInfo :=
  match find_payee_payment_in_range payee_name s startI endI with
  | some p => some p
  | none => find_scheduled_payee_payment_in_range payee_name s startI endI todayI

/-- `account.balance_current is not None and account.balance_current != 0`
(line 431). -/
def balanceNeedsPayment (account : Account) : Bool :=
  match account.balance_current with
  | none => false
  | some b => !(b == 0)

/-- One iteration of the credit-card loop (lines 405-432) acting on the
accumulated `(missing, passed)` lists. -/
def ccStep (s : Session) (startI endI todayI : Int)
    (acc : List AccountReport × List AccountReport) (account : Account) :
    List AccountReport × List AccountReport :=
  let payment := accountPayment account s startI endI todayI
  let report : AccountReport := ⟨account.name, payment.isSome, payment⟩
  match payment with
  | some _ => (acc.1, acc.2 ++ [report])
  | none =>
    if balanceNeedsPayment account then (acc.1 ++ [report], acc.2) else acc

/-- The credit-card portion of `generate_report` (lines 397-432): select
the credit-card accounts, then classify each into
`(cc_missing, cc_passed)`. -/
def ccReports (accounts : List Account) (s : Session) (startI endI todayI : Int) :
    List AccountReport × List AccountReport :=
  (accounts.filter is_credit_card_account).foldl (ccStep s startI endI todayI) ([], [])

/-- One iteration of the monitored-payee loop (lines 441-467): no balance
suppression on the missing side. -/
def payeeStep (s : Session) (startI endI todayI : Int)
    (acc : List PayeeReport × List PayeeReport) (payee_name : String) :
    List PayeeReport × List PayeeReport :=
  let payment := payeePayment payee_name s startI endI todayI
  let report : PayeeReport := ⟨payee_name, payment.isSome, payment⟩
  match payment with
  | some _ => (acc.1, acc.2 ++ [report])
  | none => (acc.1 ++ [report], acc.2)

/-- The monitored-payee portion of `generate_report` (lines 435-467),
returning `(payee_missing, payee_passed)`. -/
def payeeReports (names : List String) (s : Session) (startI endI todayI : Int) :
    List PayeeReport × List PayeeReport :=
  names.foldl (payeeStep s startI endI todayI) ([], [])

/-- The `AccountReport` built by one loop iteration (lines 422-426). -/
def accountReportOf (s : Session) (startI endI todayI : Int) (a : Account) : AccountReport :=
  ⟨a.name, (accountPayment a s startI endI todayI).isSome, accountPayment a s startI endI todayI⟩

/-- The `PayeeReport` built by one loop iteration (lines 458-462). -/
def payeeReportOf (s : Session) (startI endI todayI : Int) (n : String) : PayeeReport :=
  ⟨n, (payeePayment n s startI endI todayI).isSome, payeePayment n s startI endI todayI⟩

/-- A rule whose stored payloads both parse: removing the ill-formed
rules is what "skipping" them should amount to. -/
def ruleWellFormed (r : Rule) : Bool :=
  r.conditions.isOk && r.actions.isOk

/-! ## Concrete store instances used by the witnesses -/

/-- A monitored credit-card account (marker-prefixed name, negative
balance). -/
def wAccount : Account := ⟨"acct-cc", some (ccMarker ++ " Visa"), some (-5000)⟩

/-- A transfer payee pointing at a different account. -/
def wPayee : Payee := ⟨"payee-1", some "Transfer Payee", some "acct-checking", 0⟩

/-- A posted payment transaction on the credit card. -/
def wTx : Transaction := ⟨"acct-cc", 20261005, 5000, some "payee-1", some "autopay", 0, 0⟩

/-- A store containing exactly the payment above. -/
def wSession : Session := ⟨[wTx], [wPayee], []⟩

/-- A deleted (`tombstone = 1`) transfer payee. -/
def c10Payee : Payee := ⟨"payee-2", some "Deleted Transfer", some "acct-checking", 1⟩

/-- A transaction addressed to the deleted payee. -/
def c10Tx : Transaction := ⟨"acct-cc", 20261005, 5000, some "payee-2", none, 0, 0⟩

/-- A store whose only payee is deleted. -/
def c10Session : Session := ⟨[c10Tx], [c10Payee], []⟩

/-- A well-formed scheduled-payment rule for `wAccount`: future date,
positive amount, link-schedule action. -/
def wRule : Rule :=
  ⟨0,
   Except.ok [⟨some "date", some (JVal.jstr "2026-10-20")⟩,
              ⟨some "amount", some (JVal.jint 2500)⟩,
              ⟨some "acct", some (JVal.jstr "acct-cc")⟩],
   Except.ok [⟨some "link-schedule", none, none⟩]⟩

/-- A rule whose conditions payload does not parse. -/
def badRule : Rule := ⟨0, Except.error (), Except.error ()⟩

/-- An outgoing transaction to `wPayee` inside the window. -/
def wPayeeTx : Transaction := ⟨"acct-checking", 20261001, -4000, some "payee-1", none, 0, 0⟩

/-- A store for the payee-path witnesses. -/
def wPayeeSession : Session := ⟨[wPayeeTx], [wPayee], []⟩

/-! ## Shared helper lemmas -/

theorem txIsTransferPayment_amount_pos {account : Account} {s : Session} {t : Transaction}
    (h : txIsTransferPayment account s t = true) : 0 < t.amount := by
  unfold txIsTransferPayment at h
  split at h
  · exact absurd h (by simp)
  · split at h
    · exact absurd h (by simp)
    · split at h
      · exact absurd h (by simp)
      · split at h
        · exact absurd h (by simp)
        · simp only [Bool.and_eq_true, decide_eq_true_eq] at h
          exact h.2

theorem evalScheduledRule_eq_some_iff {account : Account} {startI endI todayI : Int}
    {r : Rule} {info : PaymentInfo} :
    evalScheduledRule account startI endI todayI r = some info ↔
      ∃ conds acts, r.conditions = Except.ok conds ∧ r.actions = Except.ok acts ∧
      ∃ d z, scanConds "acct" conds (none, none, none) =
          (some d, some (JVal.jint z), some (JVal.jstr account.id)) ∧
        startI ≤ d ∧ d ≤ endI ∧ todayI < d ∧ 0 < z ∧
        (∃ a ∈ acts, a.op = some "link-schedule") ∧
        info = ⟨d, (z : Rat) / 100, findNotes acts, true⟩ := by
  unfold evalScheduledRule
  cases hc : r.conditions with
  | error e => simp [hc]
  | ok conds =>
    rcases hscan : scanConds "acct" conds (none, none, none) with ⟨dOpt, aOpt, vOpt⟩
    cases ha : r.actions with
    | error e =>
      simp only [hc]
      rcases vOpt with _ | ⟨sid | z0 | _⟩ <;> rcases dOpt with _ | d <;>
        rcases aOpt with _ | ⟨s2 | z2 | _⟩ <;>
        simp [ha, hscan, Prod.mk.injEq]
    | ok acts =>
      simp only [hc]
      rcases vOpt with _ | ⟨sid | z0 | _⟩ <;> rcases dOpt with _ | d <;>
        rcases aOpt with _ | ⟨s2 | z2 | _⟩ <;>
        first
        | (simp [ha, hscan, Prod.mk.injEq]
           done)
        | skip
      simp only [ha, hscan, Option.ite_none_right_eq_some, Option.some.injEq,
        Bool.and_eq_true, beq_iff_eq, decide_eq_true_eq, Option.isSome_some,
        List.any_eq_true, Except.ok.injEq, Prod.mk.injEq, JVal.jint.injEq,
        JVal.jstr.injEq, Option.getD_some]
      constructor
      · rintro ⟨⟨⟨⟨⟨hsid, -⟩, -⟩, ⟨hs, he⟩, ht⟩, hz0⟩, ⟨hany, hz⟩, hinfo⟩
        subst hsid
        exact ⟨conds, acts, rfl, rfl, d, z2, hscan, hs, he, ht, hz, hany, hinfo.symm⟩
      · rintro ⟨conds1, acts1, rfl, rfl, d1, z1, hscan1, hs, he, ht, hz, hany, hinfo⟩
        rw [hscan] at hscan1
        simp only [Prod.mk.injEq, Option.some.injEq, JVal.jint.injEq,
          JVal.jstr.injEq] at hscan1
        obtain ⟨hd1, hz1, hsid⟩ := hscan1
        subst hd1
        subst hz1
        subst hsid
        exact ⟨⟨⟨⟨⟨rfl, trivial⟩, trivial⟩, ⟨hs, he⟩, ht⟩, by omega⟩, ⟨hany, hz⟩,
          hinfo.symm⟩

theorem evalScheduledPayeeRule_eq_some_iff {mp : Payee} {startI endI todayI : Int}
    {r : Rule} {info : PaymentInfo} :
    evalScheduledPayeeRule mp startI endI todayI r = some info ↔
      ∃ conds acts, r.conditions = Except.ok conds ∧ r.actions = Except.ok acts ∧
      ∃ d z, scanConds "description" conds (none, none, none) =
          (some d, some (JVal.jint z), some (JVal.jstr mp.id)) ∧
        startI ≤ d ∧ d ≤ endI ∧ todayI < d ∧ z < 0 ∧
        (∃ a ∈ acts, a.op = some "link-schedule") ∧
        info = ⟨d, abs ((z : Rat) / 100), findNotes acts, true⟩ := by
  unfold evalScheduledPayeeRule
  cases hc : r.conditions with
  | error e => simp [hc]
  | ok conds =>
    rcases hscan : scanConds "description" conds (none, none, none) with ⟨dOpt, aOpt, vOpt⟩
    cases ha : r.actions with
    | error e =>
      simp only [hc]
      rcases vOpt with _ | ⟨sid | z0 | _⟩ <;> rcases dOpt with _ | d <;>
        rcases aOpt with _ | ⟨s2 | z2 | _⟩ <;>
        simp [ha, hscan, Prod.mk.injEq]
    | ok acts =>
      simp only [hc]
      rcases vOpt with _ | ⟨sid | z0 | _⟩ <;> rcases dOpt with _ | d <;>
        rcases aOpt with _ | ⟨s2 | z2 | _⟩ <;>
        first
        | (simp [ha, hscan, Prod.mk.injEq]
           done)
        | skip
      simp only [ha, hscan, Option.ite_none_right_eq_some, Option.some.injEq,
        Bool.and_eq_true, beq_iff_eq, decide_eq_true_eq, Option.isSome_some,
        List.any_eq_true, Except.ok.injEq, Prod.mk.injEq, JVal.jint.injEq,
        JVal.jstr.injEq, Option.getD_some]
      constructor
      · rintro ⟨⟨⟨⟨⟨hsid, -⟩, -⟩, ⟨hs, he⟩, ht⟩, hz0⟩, ⟨hany, hz⟩, hinfo⟩
        subst hsid
        exact ⟨conds, acts, rfl, rfl, d, z2, hscan, hs, he, ht, hz, hany, hinfo.symm⟩
      · rintro ⟨conds1, acts1, rfl, rfl, d1, z1, hscan1, hs, he, ht, hz, hany, hinfo⟩
        rw [hscan] at hscan1
        simp only [Prod.mk.injEq, Option.some.injEq, JVal.jint.injEq,
          JVal.jstr.injEq] at hscan1
        obtain ⟨hd1, hz1, hsid⟩ := hscan1
        subst hd1
        subst hz1
        subst hsid
        exact ⟨⟨⟨⟨⟨rfl, trivial⟩, trivial⟩, ⟨hs, he⟩, ht⟩, by omega⟩, ⟨hany, hz⟩,
          hinfo.symm⟩

theorem evalScheduledRule_some {account : Account} {startI endI todayI : Int} {r : Rule}
    {info : PaymentInfo} (h : evalScheduledRule account startI endI todayI r = some info) :
    ∃ z : Int, 0 < z ∧ info.amount = (z : Rat) / 100 := by
  obtain ⟨conds, acts, hc, ha, d, z, hscan, hs, he, ht, hz, hany, hinfo⟩ :=
    evalScheduledRule_eq_some_iff.mp h
  exact ⟨z, hz, by rw [hinfo]⟩

theorem evalScheduledPayeeRule_some {mp : Payee} {startI endI todayI : Int} {r : Rule}
    {info : PaymentInfo} (h : evalScheduledPayeeRule mp startI endI todayI r = some info) :
    ∃ z : Int, z < 0 ∧ info.amount = abs ((z : Rat) / 100) := by
  obtain ⟨conds, acts, hc, ha, d, z, hscan, hs, he, ht, hz, hany, hinfo⟩ :=
    evalScheduledPayeeRule_eq_some_iff.mp h
  exact ⟨z, hz, by rw [hinfo]⟩

/-! ## Claim theorems -/

/-- C9: an account is classified as a monitored credit-card account iff
its display name is present and begins with the marker glyph, regardless
of any other field; an empty or absent name never matches. -/
theorem C9_credit_card_selector (account : Account) :
    (is_credit_card_account account = true ↔
      ∃ n, account.name = some n ∧ ccMarker.data.isPrefixOf n.data = true) ∧
    (account.name = none ∨ account.name = some "" →
      is_credit_card_account account = false) := by
  constructor
  · cases hn : account.name with
    | none => simp [is_credit_card_account, hn]
    | some n =>
      simp only [is_credit_card_account, hn, Bool.and_eq_true, Bool.not_eq_true',
        beq_eq_false_iff_ne, ne_eq, Option.some.injEq]
      constructor
      · rintro ⟨hne, hp⟩
        exact ⟨n, rfl, hp⟩
      · rintro ⟨m, hm, hp⟩
        subst hm
        refine ⟨?_, hp⟩
        rintro rfl
        simp [List.isPrefixOf, ccMarker] at hp
  · rintro (hn | hn) <;> simp [is_credit_card_account, hn, List.isPrefixOf, ccMarker]

/-- C9 witness: a marker-prefixed account is selected; a markerless or
nameless account is not. -/
theorem C9_credit_card_selector_witness :
    is_credit_card_account wAccount = true ∧
    is_credit_card_account ⟨"x", none, none⟩ = false := by
  constructor
  · exact (C9_credit_card_selector wAccount).1.mpr ⟨ccMarker ++ " Visa", rfl, rfl⟩
  · exact (C9_credit_card_selector ⟨"x", none, none⟩).2 (Or.inl rfl)

/-- C10: the posted-transaction path for accounts looks the payee up
without checking its deletion flag: a transaction whose payee is deleted
but has a transfer account different from the owning account, with
positive amount, still qualifies. -/
theorem C10_deleted_payee_still_matches :
    c10Payee.tombstone = 1 ∧
    find_payment_in_range ⟨"acct-cc", some "cc", some 0⟩ c10Session 20260928 20261026 =
      some ⟨20261005, ((5000 : Int) : Rat) / 100, none, false⟩ :=
  ⟨rfl, rfl⟩

/-- C3: for both accounts and payees, the matcher returns the posted
path's result whenever that path finds something, and falls back to the
scheduled path exactly when the posted path returned nothing. -/
theorem C3_posted_path_priority (account : Account) (payee_name : String) (s : Session)
    (startI endI todayI : Int) :
    (∀ p, find_payment_in_range account s startI endI = some p →
      accountPayment account s startI endI todayI = some p) ∧
    (find_payment_in_range account s startI endI = none →
      accountPayment account s startI endI todayI =
        find_scheduled_payment_in_range account s startI endI todayI) ∧
    (∀ p, find_payee_payment_in_range payee_name s startI endI = some p →
      payeePayment payee_name s startI endI todayI = some p) ∧
    (find_payee_payment_in_range payee_name s startI endI = none →
      payeePayment payee_name s startI endI todayI =
        find_scheduled_payee_payment_in_range payee_name s startI endI todayI) := by
  refine ⟨fun p hp => ?_, fun hn => ?_, fun p hp => ?_, fun hn => ?_⟩
  · simp [accountPayment, hp]
  · simp [accountPayment, hn]
  · simp [payeePayment, hp]
  · simp [payeePayment, hn]

/-- C3 witness: with both a qualifying posted transaction and a
qualifying scheduled rule present for the same account, the posted
transaction's `PaymentInfo` (not marked scheduled) is returned. -/
theorem C3_posted_path_priority_witness :
    accountPayment wAccount ⟨[wTx], [wPayee], [wRule]⟩ 20260928 20261026 20261012 =
      some ⟨20261005, ((5000 : Int) : Rat) / 100, some "autopay", false⟩ :=
  (C3_posted_path_priority wAccount "x" ⟨[wTx], [wPayee], [wRule]⟩
    20260928 20261026 20261012).1 _ rfl

/-- C7: every `PaymentInfo` produced by any of the four matcher paths
has a non-negative amount, although ledger amounts are signed. -/
theorem C7_payment_amount_nonneg (account : Account) (payee_name : String) (s : Session)
    (startI endI todayI : Int) (info : PaymentInfo) :
    (find_payment_in_range account s startI endI = some info → 0 ≤ info.amount) ∧
    (find_scheduled_payment_in_range account s startI endI todayI = some info →
      0 ≤ info.amount) ∧
    (find_payee_payment_in_range payee_name s startI endI = some info → 0 ≤ info.amount) ∧
    (find_scheduled_payee_payment_in_range payee_name s startI endI todayI = some info →
      0 ≤ info.amount) := by
  refine ⟨fun h => ?_, fun h => ?_, fun h => ?_, fun h => ?_⟩
  · unfold find_payment_in_range at h
    rw [Option.map_eq_some'] at h
    obtain ⟨t, hfind, heq⟩ := h
    have hpos : 0 < t.amount := txIsTransferPayment_amount_pos (List.find?_some hfind)
    rw [← heq]
    have : (0 : Rat) < (t.amount : Rat) := by exact_mod_cast hpos
    positivity
  · unfold find_scheduled_payment_in_range at h
    obtain ⟨r, _, hr⟩ := List.exists_of_findSome?_eq_some h
    obtain ⟨z, hz, ha⟩ := evalScheduledRule_some hr
    rw [ha]
    have : (0 : Rat) < (z : Rat) := by exact_mod_cast hz
    positivity
  · unfold find_payee_payment_in_range at h
    split at h
    · exact absurd h (by simp)
    · split at h
      · exact absurd h (by simp)
      · simp only [Option.some.injEq] at h
        rw [← h]
        exact abs_nonneg _
  · unfold find_scheduled_payee_payment_in_range at h
    split at h
    · exact absurd h (by simp)
    · obtain ⟨r, _, hr⟩ := List.exists_of_findSome?_eq_some h
      obtain ⟨z, hz, ha⟩ := evalScheduledPayeeRule_some hr
      rw [ha]
      exact abs_nonneg _

/-- C7 witness: the posted payment of the concrete store has a
non-negative amount. -/
theorem C7_payment_amount_nonneg_witness :
    0 ≤ (PaymentInfo.mk 20261005 (((5000 : Int) : Rat) / 100) (some "autopay") false).amount :=
  (C7_payment_amount_nonneg wAccount "x" wSession 20260928 20261026 20261012
    ⟨20261005, ((5000 : Int) : Rat) / 100, some "autopay", false⟩).1 rfl

/-- C1: a transaction considered by the account posted-payment matcher
(one of the account's transactions) qualifies iff it is non-deleted,
non-split-parent, dated inside `[start_key, end_key]`, carries a payee
whose transfer-account reference is present and different from the
account's id, and has strictly positive amount.  The two provisos rule
out empty-string ids, which the store never produces (Python truthiness
would treat them as absent). -/
theorem C1_posted_payment_qualification (account : Account) (s : Session)
    (startI endI : Int) (t : Transaction) (hacct : t.acct = account.id)
    (hpid : t.payee_id ≠ some "")
    (hta : ∀ p ∈ s.payees, p.transfer_acct ≠ some "") :
    txQualifies account s startI endI t = true ↔
      (t.tombstone = 0 ∧ t.is_parent = 0 ∧ startI ≤ t.date ∧ t.date ≤ endI ∧
       (∃ pid p, t.payee_id = some pid ∧ lookupPayee s pid = some p ∧
          ∃ ta, p.transfer_acct = some ta ∧ ta ≠ account.id) ∧
       0 < t.amount) := by
  unfold txQualifies txPrefilter txIsTransferPayment
  cases hp : t.payee_id with
  | none => simp [hp]
  | some pid =>
    have hpid' : (pid == "") = false := by
      simp only [beq_eq_false_iff_ne, ne_eq]
      intro h
      exact hpid (by rw [hp, h])
    cases hl : lookupPayee s pid with
    | none => simp [hp, hpid', hl]
    | some payee =>
      cases hta' : payee.transfer_acct with
      | none => simp [hp, hpid', hl, hta']
      | some ta =>
        have htane : (ta == "") = false := by
          simp only [beq_eq_false_iff_ne, ne_eq]
          intro h
          exact hta payee (List.mem_of_find?_eq_some hl) (by rw [hta', h])
        simp only [hp, hpid', hl, hta', hacct, Bool.if_false_left, Bool.and_eq_true,
          beq_iff_eq, decide_eq_true_eq, Bool.not_eq_true', htane, Option.some.injEq,
          beq_eq_false_iff_ne, ne_eq]
        constructor
        · rintro ⟨⟨⟨⟨⟨-, hs⟩, he⟩, htom⟩, hpar⟩, -, ⟨-, hne⟩, hpos⟩
          exact ⟨htom, hpar, hs, he, ⟨pid, payee, rfl, hl, ta, hta', hne⟩, hpos⟩
        · rintro ⟨htom, hpar, hs, he, ⟨pid1, payee1, hpe, hle, ta1, hta1, hne⟩, hpos⟩
          obtain rfl : pid1 = pid := hpe.symm
          obtain rfl : payee1 = payee := by
            rw [hl] at hle
            exact (Option.some.inj hle).symm
          obtain rfl : ta1 = ta := by
            rw [hta'] at hta1
            exact (Option.some.inj hta1).symm
          exact ⟨⟨⟨⟨⟨trivial, hs⟩, he⟩, htom⟩, hpar⟩, by decide, ⟨trivial, hne⟩, hpos⟩

/-- C1 witness: the concrete posted payment of `wSession` qualifies, and
the qualification matches the spec's conjunction there. -/
theorem C1_posted_payment_qualification_witness :
    txQualifies wAccount wSession 20260928 20261026 wTx = true :=
  (C1_posted_payment_qualification wAccount wSession 20260928 20261026 wTx rfl
    (by decide)
    (by intro p hp; fin_cases hp; decide)).mpr
    ⟨rfl, rfl, by decide, by decide,
      ⟨"payee-1", wPayee, rfl, rfl, "acct-checking", rfl, by decide⟩, by decide⟩

/-- C2: a schedule rule qualifies as a future scheduled payment iff its
parsed date lies strictly after `today_key` and at most `end_key`, its
parsed amount is a nonzero integer of the direction's sign (positive for
account targets, negative for payee targets), its target condition
matches (account id, resp. resolved payee id), and its parsed actions
contain a link-schedule operation.  The matcher is always invoked with
`start_key ≤ today_key`, under which the code's extra lower-window test
is subsumed. -/
theorem C2_scheduled_rule_qualification (account : Account) (mp : Payee)
    (startI endI todayI : Int) (r : Rule) (hst : startI ≤ todayI) :
    ((evalScheduledRule account startI endI todayI r).isSome = true ↔
      ∃ conds acts d z, r.conditions = Except.ok conds ∧ r.actions = Except.ok acts ∧
        scanConds "acct" conds (none, none, none) =
          (some d, some (JVal.jint z), some (JVal.jstr account.id)) ∧
        todayI < d ∧ d ≤ endI ∧ 0 < z ∧
        (∃ a ∈ acts, a.op = some "link-schedule")) ∧
    ((evalScheduledPayeeRule mp startI endI todayI r).isSome = true ↔
      ∃ conds acts d z, r.conditions = Except.ok conds ∧ r.actions = Except.ok acts ∧
        scanConds "description" conds (none, none, none) =
          (some d, some (JVal.jint z), some (JVal.jstr mp.id)) ∧
        todayI < d ∧ d ≤ endI ∧ z < 0 ∧
        (∃ a ∈ acts, a.op = some "link-schedule")) := by
  constructor
  · rw [Option.isSome_iff_exists]
    constructor
    · rintro ⟨info, hinfo⟩
      obtain ⟨conds, acts, hc, ha, d, z, hscan, hs, he, ht, hz, hany, -⟩ :=
        evalScheduledRule_eq_some_iff.mp hinfo
      exact ⟨conds, acts, d, z, hc, ha, hscan, ht, he, hz, hany⟩
    · rintro ⟨conds, acts, d, z, hc, ha, hscan, ht, he, hz, hany⟩
      exact ⟨_, evalScheduledRule_eq_some_iff.mpr
        ⟨conds, acts, hc, ha, d, z, hscan, by omega, he, ht, hz, hany, rfl⟩⟩
  · rw [Option.isSome_iff_exists]
    constructor
    · rintro ⟨info, hinfo⟩
      obtain ⟨conds, acts, hc, ha, d, z, hscan, hs, he, ht, hz, hany, -⟩ :=
        evalScheduledPayeeRule_eq_some_iff.mp hinfo
      exact ⟨conds, acts, d, z, hc, ha, hscan, ht, he, hz, hany⟩
    · rintro ⟨conds, acts, d, z, hc, ha, hscan, ht, he, hz, hany⟩
      exact ⟨_, evalScheduledPayeeRule_eq_some_iff.mpr
        ⟨conds, acts, hc, ha, d, z, hscan, by omega, he, ht, hz, hany, rfl⟩⟩

/-- C2 witness: the concrete future rule `wRule` qualifies on the
account side of the equivalence. -/
theorem C2_scheduled_rule_qualification_witness :
    (evalScheduledRule wAccount 20260928 20261026 20261012 wRule).isSome = true :=
  (C2_scheduled_rule_qualification wAccount wPayee 20260928 20261026 20261012 wRule
    (by decide)).1.mpr
    ⟨[⟨some "date", some (JVal.jstr "2026-10-20")⟩,
      ⟨some "amount", some (JVal.jint 2500)⟩,
      ⟨some "acct", some (JVal.jstr "acct-cc")⟩],
     [⟨some "link-schedule", none, none⟩], 20261020, 2500,
     rfl, rfl, rfl, by decide, by decide, by decide,
     ⟨⟨some "link-schedule", none, none⟩, by decide, rfl⟩⟩

theorem evalScheduledRule_none_of_not_wellFormed {account : Account}
    {startI endI todayI : Int} {r : Rule} (h : ruleWellFormed r = false) :
    evalScheduledRule account startI endI todayI r = none := by
  unfold ruleWellFormed at h
  unfold evalScheduledRule
  cases hc : r.conditions with
  | error e => rfl
  | ok conds =>
    cases ha : r.actions with
    | ok acts =>
      rw [hc, ha] at h
      simp [Except.isOk, Except.toBool] at h
    | error e =>
      rcases hscan : scanConds "acct" conds (none, none, none) with ⟨dOpt, aOpt, vOpt⟩
      simp [hscan, ha]

theorem evalScheduledPayeeRule_none_of_not_wellFormed {mp : Payee}
    {startI endI todayI : Int} {r : Rule} (h : ruleWellFormed r = false) :
    evalScheduledPayeeRule mp startI endI todayI r = none := by
  unfold ruleWellFormed at h
  unfold evalScheduledPayeeRule
  cases hc : r.conditions with
  | error e => rfl
  | ok conds =>
    cases ha : r.actions with
    | ok acts =>
      rw [hc, ha] at h
      simp [Except.isOk, Except.toBool] at h
    | error e =>
      rcases hscan : scanConds "description" conds (none, none, none) with ⟨dOpt, aOpt, vOpt⟩
      simp [hscan, ha]

theorem findSome?_filter_wellFormed {β : Type _} (f : Rule → Option β)
    (hf : ∀ r, ruleWellFormed r = false → f r = none) :
    ∀ l : List Rule,
      (l.filter (fun r => r.tombstone == 0)).findSome? f =
      ((l.filter ruleWellFormed).filter (fun r => r.tombstone == 0)).findSome? f := by
  intro l
  induction l with
  | nil => rfl
  | cons r rest ih =>
    by_cases hw : ruleWellFormed r = true
    · simp only [List.filter_cons, hw, if_true]
      by_cases ht : (r.tombstone == 0) = true
      · simp only [ht, if_true, List.findSome?_cons]
        cases f r with
        | none => exact ih
        | some b => rfl
      · simp only [ht, if_false, Bool.false_eq_true, ih]
    · rw [Bool.not_eq_true] at hw
      simp only [List.filter_cons, hw, if_false, Bool.false_eq_true]
      by_cases ht : (r.tombstone == 0) = true
      · simp only [ht, if_true, List.findSome?_cons, hf r hw]
        exact ih
      · simp only [ht, if_false, Bool.false_eq_true]
        exact ih

/-- C8: malformed schedule rules are skipped without aborting the scan —
both scheduled matchers compute the same result on a store whose
ill-formed rules are removed — and a monitored payee name that resolves
to no payee yields "no payment" from both payee paths rather than an
error. -/
theorem C8_malformed_rules_skipped (account : Account) (payee_name : String)
    (ts : List Transaction) (ps : List Payee) (rs : List Rule)
    (startI endI todayI : Int) :
    (find_scheduled_payment_in_range account ⟨ts, ps, rs⟩ startI endI todayI =
      find_scheduled_payment_in_range account ⟨ts, ps, rs.filter ruleWellFormed⟩
        startI endI todayI) ∧
    (find_scheduled_payee_payment_in_range payee_name ⟨ts, ps, rs⟩ startI endI todayI =
      find_scheduled_payee_payment_in_range payee_name ⟨ts, ps, rs.filter ruleWellFormed⟩
        startI endI todayI) ∧
    (resolvePayee ⟨ts, ps, rs⟩ payee_name = none →
      find_payee_payment_in_range payee_name ⟨ts, ps, rs⟩ startI endI = none ∧
      find_scheduled_payee_payment_in_range payee_name ⟨ts, ps, rs⟩ startI endI todayI =
        none) := by
  refine ⟨?_, ?_, fun hres => ⟨?_, ?_⟩⟩
  · exact findSome?_filter_wellFormed _
      (fun r hr => evalScheduledRule_none_of_not_wellFormed hr) rs
  · unfold find_scheduled_payee_payment_in_range
    have : resolvePayee ⟨ts, ps, rs.filter ruleWellFormed⟩ payee_name =
        resolvePayee ⟨ts, ps, rs⟩ payee_name := rfl
    rw [this]
    cases resolvePayee ⟨ts, ps, rs⟩ payee_name with
    | none => rfl
    | some mp =>
      exact findSome?_filter_wellFormed _
        (fun r hr => evalScheduledPayeeRule_none_of_not_wellFormed hr) rs
  · unfold find_payee_payment_in_range
    rw [hres]
  · unfold find_scheduled_payee_payment_in_range
    rw [hres]

/-- C8 witness: on a store holding a malformed rule ahead of a good one,
the scan result equals the well-formed-only scan; an unresolvable payee
name produces "no payment" from both payee paths. -/
theorem C8_malformed_rules_skipped_witness :
    find_scheduled_payment_in_range wAccount ⟨[], [], [badRule, wRule]⟩
        20260928 20261026 20261012 =
      find_scheduled_payment_in_range wAccount
        ⟨[], [], List.filter ruleWellFormed [badRule, wRule]⟩ 20260928 20261026 20261012 ∧
    find_payee_payment_in_range "ghost" ⟨[], [], [badRule, wRule]⟩ 20260928 20261026 =
      none :=
  ⟨(C8_malformed_rules_skipped wAccount "ghost" [] [] [badRule, wRule]
      20260928 20261026 20261012).1,
   ((C8_malformed_rules_skipped wAccount "ghost" [] [] [badRule, wRule]
      20260928 20261026 20261012).2.2 rfl).1⟩

theorem ccFoldl_spec (s : Session) (startI endI todayI : Int) :
    ∀ (accounts : List Account) (init : List AccountReport × List AccountReport),
      accounts.foldl (ccStep s startI endI todayI) init =
        (init.1 ++ (accounts.filter
            (fun a => (accountPayment a s startI endI todayI).isNone &&
              balanceNeedsPayment a)).map (accountReportOf s startI endI todayI),
         init.2 ++ (accounts.filter
            (fun a => (accountPayment a s startI endI todayI).isSome)).map
              (accountReportOf s startI endI todayI)) := by
  intro accounts
  induction accounts with
  | nil => intro init; simp
  | cons a rest ih =>
    intro init
    simp only [List.foldl_cons, List.filter_cons]
    cases hp : accountPayment a s startI endI todayI with
    | some p =>
      have hstep : ccStep s startI endI todayI init a =
          (init.1, init.2 ++ [accountReportOf s startI endI todayI a]) := by
        unfold ccStep accountReportOf
        rw [hp]
      rw [hstep, ih]
      simp [hp, List.append_assoc]
    | none =>
      cases hb : balanceNeedsPayment a with
      | true =>
        have hstep : ccStep s startI endI todayI init a =
            (init.1 ++ [accountReportOf s startI endI todayI a], init.2) := by
          unfold ccStep accountReportOf
          rw [hp, hb]
          simp
        rw [hstep, ih]
        simp [hp, hb, List.append_assoc]
      | false =>
        have hstep : ccStep s startI endI todayI init a = init := by
          unfold ccStep
          rw [hp, hb]
          simp
        rw [hstep, ih]
        simp [hp, hb]

theorem payeeFoldl_spec (s : Session) (startI endI todayI : Int) :
    ∀ (names : List String) (init : List PayeeReport × List PayeeReport),
      names.foldl (payeeStep s startI endI todayI) init =
        (init.1 ++ (names.filter
            (fun n => (payeePayment n s startI endI todayI).isNone)).map
              (payeeReportOf s startI endI todayI),
         init.2 ++ (names.filter
            (fun n => (payeePayment n s startI endI todayI).isSome)).map
              (payeeReportOf s startI endI todayI)) := by
  intro names
  induction names with
  | nil => intro init; simp
  | cons n rest ih =>
    intro init
    simp only [List.foldl_cons, List.filter_cons]
    cases hp : payeePayment n s startI endI todayI with
    | some p =>
      have hstep : payeeStep s startI endI todayI init n =
          (init.1, init.2 ++ [payeeReportOf s startI endI todayI n]) := by
        unfold payeeStep payeeReportOf
        rw [hp]
      rw [hstep, ih]
      simp [hp, List.append_assoc]
    | none =>
      have hstep : payeeStep s startI endI todayI init n =
          (init.1 ++ [payeeReportOf s startI endI todayI n], init.2) := by
        unfold payeeStep payeeReportOf
        rw [hp]
      rw [hstep, ih]
      simp [hp, List.append_assoc]

/-- C4: the classifier files every monitored credit-card account with a
found payment under "passed"; a card without a payment appears under
"missing" exactly when its balance is non-null and nonzero (the balance
test being precisely that); monitored payees have no balance
suppression — every unmatched payee name is filed under "missing". -/
theorem C4_report_classifier (accounts : List Account) (names : List String)
    (s : Session) (startI endI todayI : Int) (a : Account) :
    (ccReports accounts s startI endI todayI =
      (((accounts.filter is_credit_card_account).filter
          (fun a => (accountPayment a s startI endI todayI).isNone &&
            balanceNeedsPayment a)).map (accountReportOf s startI endI todayI),
       ((accounts.filter is_credit_card_account).filter
          (fun a => (accountPayment a s startI endI todayI).isSome)).map
            (accountReportOf s startI endI todayI))) ∧
    (balanceNeedsPayment a = true ↔ ∃ b, a.balance_current = some b ∧ b ≠ 0) ∧
    (payeeReports names s startI endI todayI =
      ((names.filter (fun n => (payeePayment n s startI endI todayI).isNone)).map
          (payeeReportOf s startI endI todayI),
       (names.filter (fun n => (payeePayment n s startI endI todayI).isSome)).map
          (payeeReportOf s startI endI todayI))) := by
  refine ⟨?_, ?_, ?_⟩
  · unfold ccReports
    rw [ccFoldl_spec]
    simp
  · unfold balanceNeedsPayment
    cases a.balance_current with
    | none => simp
    | some b => simp
  · unfold payeeReports
    rw [payeeFoldl_spec]
    simp

theorem dateDescTrans :
    ∀ a b c : Transaction, (fun a b => decide (b.date ≤ a.date)) a b = true →
      (fun a b => decide (b.date ≤ a.date)) b c = true →
      (fun a b => decide (b.date ≤ a.date)) a c = true := by
  intro a b c hab hbc
  simp only [decide_eq_true_eq] at *
  omega

theorem dateDescTotal :
    ∀ a b : Transaction, ((fun a b => decide (b.date ≤ a.date)) a b ||
      (fun a b => decide (b.date ≤ a.date)) b a) = true := by
  intro a b
  simp only [Bool.or_eq_true, decide_eq_true_eq]
  omega

/-- C6: for a resolvable monitored payee name, the posted payee matcher
resolves it to the first non-deleted payee whose name contains the
target case-insensitively, selects among that payee's non-deleted,
non-split-parent, in-window, strictly-negative transactions, and returns
the most recent one with the absolute value of `amount / 100` as the
displayed amount; an unresolvable name yields no payment. -/
theorem C6_payee_posted_matcher (payee_name : String) (s : Session) (startI endI : Int) :
    (resolvePayee s payee_name = none →
      find_payee_payment_in_range payee_name s startI endI = none) ∧
    (∀ mp, resolvePayee s payee_name = some mp →
      (mp ∈ s.payees ∧ mp.tombstone = 0 ∧
        ∃ nm, mp.name = some nm ∧
          listContains (pyLower payee_name) (pyLower nm) = true) ∧
      (∀ t, t ∈ payeeTxCandidates mp.id s startI endI ↔
        (t ∈ s.transactions ∧ t.payee_id = some mp.id ∧ startI ≤ t.date ∧
          t.date ≤ endI ∧ t.amount < 0 ∧ t.tombstone = 0 ∧ t.is_parent = 0)) ∧
      (find_payee_payment_in_range payee_name s startI endI = none ↔
        payeeTxCandidates mp.id s startI endI = []) ∧
      (∀ info, find_payee_payment_in_range payee_name s startI endI = some info →
        ∃ t, t ∈ payeeTxCandidates mp.id s startI endI ∧
          info.date = t.date ∧ info.amount = abs ((t.amount : Rat) / 100) ∧
          info.notes = t.notes ∧ info.is_scheduled = false ∧
          ∀ u ∈ payeeTxCandidates mp.id s startI endI, u.date ≤ t.date)) := by
  constructor
  · intro hres
    unfold find_payee_payment_in_range
    rw [hres]
  · intro mp hres
    have hmem := List.mem_of_find?_eq_some hres
    have hpred := List.find?_some hres
    refine ⟨⟨(List.mem_filter.mp hmem).1, ?_, ?_⟩, ?_, ?_, ?_⟩
    · have := (List.mem_filter.mp hmem).2
      simpa using this
    · cases hn : mp.name with
      | none => rw [hn] at hpred; simp at hpred
      | some nm =>
        rw [hn] at hpred
        simp only [Bool.and_eq_true] at hpred
        exact ⟨nm, rfl, hpred.2⟩
    · intro t
      unfold payeeTxCandidates
      rw [List.mem_filter]
      simp [Bool.and_eq_true, decide_eq_true_eq, and_assoc]
    · have hfind : find_payee_payment_in_range payee_name s startI endI =
          (match (payeeTxCandidates mp.id s startI endI).mergeSort
              (fun a b => decide (b.date ≤ a.date)) with
           | [] => none
           | t :: _ => some ⟨t.date, abs ((t.amount : Rat) / 100), t.notes, false⟩) := by
        unfold find_payee_payment_in_range
        rw [hres]
      cases hms : (payeeTxCandidates mp.id s startI endI).mergeSort
          (fun a b => decide (b.date ≤ a.date)) with
      | nil =>
        have hperm := List.mergeSort_perm (payeeTxCandidates mp.id s startI endI)
          (fun a b => decide (b.date ≤ a.date))
        rw [hms] at hperm
        rw [hfind, hms]
        simp only [true_iff]
        exact (List.Perm.nil_eq hperm).symm
      | cons t rest =>
        have hperm := List.mergeSort_perm (payeeTxCandidates mp.id s startI endI)
          (fun a b => decide (b.date ≤ a.date))
        rw [hms] at hperm
        rw [hfind, hms]
        constructor
        · intro h
          exact absurd h (by simp)
        · intro h
          rw [h] at hperm
          simpa using hperm.length_eq
    · intro info hinfo
      have hfind : find_payee_payment_in_range payee_name s startI endI =
          (match (payeeTxCandidates mp.id s startI endI).mergeSort
              (fun a b => decide (b.date ≤ a.date)) with
           | [] => none
           | t :: _ => some ⟨t.date, abs ((t.amount : Rat) / 100), t.notes, false⟩) := by
        unfold find_payee_payment_in_range
        rw [hres]
      rw [hfind] at hinfo
      cases hms : (payeeTxCandidates mp.id s startI endI).mergeSort
          (fun a b => decide (b.date ≤ a.date)) with
      | nil => rw [hms] at hinfo; exact absurd hinfo (by simp)
      | cons t rest =>
        rw [hms] at hinfo
        simp only [Option.some.injEq] at hinfo
        have hsorted := List.sorted_mergeSort dateDescTrans dateDescTotal
          (payeeTxCandidates mp.id s startI endI)
        rw [hms] at hsorted
        have hhead := List.pairwise_cons.mp hsorted |>.1
        refine ⟨t, ?_, ?_, ?_, ?_, ?_, ?_⟩
        · have : t ∈ t :: rest := List.mem_cons_self t rest
          rw [← hms] at this
          exact List.mem_mergeSort.mp this
        · rw [← hinfo]
        · rw [← hinfo]
        · rw [← hinfo]
        · rw [← hinfo]
        · intro u hu
          have : u ∈ t :: rest := by
            rw [← hms]
            exact List.mem_mergeSort.mpr hu
          rcases List.mem_cons.mp this with h | h
          · rw [h]
          · have := hhead u h
            simpa using this

/-- C6 witness: the concrete name resolves, and the matcher's result is
not "no payment" since a candidate transaction exists. -/
theorem C6_payee_posted_matcher_witness :
    wPayee ∈ wPayeeSession.payees ∧
    find_payee_payment_in_range "transfer" wPayeeSession 20260928 20261026 ≠ none := by
  have H := (C6_payee_posted_matcher "transfer" wPayeeSession 20260928 20261026).2
    wPayee rfl
  refine ⟨H.1.1, fun hn => ?_⟩
  have hempty := (H.2.2.1).mp hn
  exact (by decide : payeeTxCandidates wPayee.id wPayeeSession 20260928 20261026 ≠ []) hempty

theorem daysInMonth_le (y m : Nat) : daysInMonth y m ≤ 31 := by
  unfold daysInMonth
  split_ifs <;> omega

theorem daysInMonth_pos (y m : Nat) : 1 ≤ daysInMonth y m := by
  unfold daysInMonth
  split_ifs <;> omega

theorem daysInMonth_twelve (y : Nat) : daysInMonth y 12 = 31 := rfl

theorem nextDay_valid {d : Date} (h : d.Valid) : (nextDay d).Valid := by
  obtain ⟨y, m, dd⟩ := d
  obtain ⟨hm1, hm2, hd1, hd2⟩ := h
  simp only [Date.Valid] at *
  unfold nextDay
  split_ifs with h1 h2 <;> simp only at * <;>
    refine ⟨by omega, by omega, by omega, ?_⟩
  · omega
  · exact daysInMonth_pos _ _
  · exact daysInMonth_pos _ _

theorem prevDay_valid {d : Date} (h : d.Valid) : (prevDay d).Valid := by
  obtain ⟨y, m, dd⟩ := d
  obtain ⟨hm1, hm2, hd1, hd2⟩ := h
  simp only [Date.Valid] at *
  unfold prevDay
  split_ifs with h1 h2 <;> simp only at * <;>
    refine ⟨by omega, by omega, ?_, ?_⟩
  · omega
  · omega
  · exact daysInMonth_pos _ _
  · exact le_refl _
  · omega
  · rw [daysInMonth_twelve]

theorem nextDay_prevDay {d : Date} (h : d.Valid) (hy : 1 ≤ d.year) :
    nextDay (prevDay d) = d := by
  obtain ⟨y, m, dd⟩ := d
  obtain ⟨hm1, hm2, hd1, hd2⟩ := h
  simp only at hy
  unfold prevDay
  split_ifs with h1 h2 <;> simp only at *
  · unfold nextDay
    simp only
    rw [if_pos (by omega)]
    congr 1
    omega
  · unfold nextDay
    simp only
    rw [if_neg (by omega), if_pos (by omega)]
    congr 1 <;> omega
  · unfold nextDay
    simp only
    rw [if_neg (by rw [daysInMonth_twelve]; omega), if_neg (by omega)]
    congr 1 <;> omega

theorem prevDay_nextDay {d : Date} (h : d.Valid) : prevDay (nextDay d) = d := by
  obtain ⟨y, m, dd⟩ := d
  obtain ⟨hm1, hm2, hd1, hd2⟩ := h
  unfold nextDay
  split_ifs with h1 h2 <;> simp only at *
  · unfold prevDay
    simp only
    rw [if_pos (by omega)]
    congr 1
  · unfold prevDay
    simp only
    rw [if_neg (by omega), if_pos (by omega)]
    have hmm : m + 1 - 1 = m := by omega
    rw [hmm]
    congr 1
    omega
  · unfold prevDay
    simp only
    rw [if_neg (by omega), if_neg (by omega)]
    have hm12 : m = 12 := by omega
    subst hm12
    rw [daysInMonth_twelve] at h1 hd2
    congr 1
    omega

theorem nextDay_year_bounds (d : Date) :
    d.year ≤ (nextDay d).year ∧ (nextDay d).year ≤ d.year + 1 := by
  obtain ⟨y, m, dd⟩ := d
  unfold nextDay
  split_ifs <;> simp only <;> omega

theorem prevDay_year_bounds (d : Date) :
    (prevDay d).year ≤ d.year ∧ d.year ≤ (prevDay d).year + 1 := by
  obtain ⟨y, m, dd⟩ := d
  unfold prevDay
  split_ifs <;> simp only <;> omega

theorem date_to_int_lt_nextDay {d : Date} (h : d.Valid) :
    date_to_int d < date_to_int (nextDay d) := by
  obtain ⟨y, m, dd⟩ := d
  obtain ⟨hm1, hm2, hd1, hd2⟩ : 1 ≤ m ∧ m ≤ 12 ∧ 1 ≤ dd ∧ dd ≤ daysInMonth y m := h
  have h31 := daysInMonth_le y m
  unfold nextDay
  split_ifs <;> simp only [date_to_int] <;> push_cast <;> omega

theorem date_to_int_prevDay_lt {d : Date} (h : d.Valid) (hy : 1 ≤ d.year) :
    date_to_int (prevDay d) < date_to_int d := by
  obtain ⟨y, m, dd⟩ := d
  obtain ⟨hm1, hm2, hd1, hd2⟩ : 1 ≤ m ∧ m ≤ 12 ∧ 1 ≤ dd ∧ dd ≤ daysInMonth y m := h
  simp only at hy
  have h31 := daysInMonth_le y (m - 1)
  unfold prevDay
  split_ifs <;> simp only [date_to_int, daysInMonth_twelve] <;> push_cast <;> omega

theorem nextDay_iter_valid (k : Nat) : ∀ d : Date, d.Valid →
    (nextDay^[k] d).Valid ∧ d.year ≤ (nextDay^[k] d).year ∧
      (nextDay^[k] d).year ≤ d.year + k := by
  induction k with
  | zero => intro d h; simpa using h
  | succ k ih =>
    intro d h
    rw [Function.iterate_succ_apply]
    obtain ⟨hv, hlo, hhi⟩ := ih (nextDay d) (nextDay_valid h)
    obtain ⟨h1, h2⟩ := nextDay_year_bounds d
    exact ⟨hv, by omega, by omega⟩

theorem prevDay_iter_valid (k : Nat) : ∀ d : Date, d.Valid →
    (prevDay^[k] d).Valid ∧ (prevDay^[k] d).year ≤ d.year ∧
      d.year ≤ (prevDay^[k] d).year + k := by
  induction k with
  | zero => intro d h; simpa using h
  | succ k ih =>
    intro d h
    rw [Function.iterate_succ_apply]
    obtain ⟨hv, hhi, hlo⟩ := ih (prevDay d) (prevDay_valid h)
    obtain ⟨h1, h2⟩ := prevDay_year_bounds d
    exact ⟨hv, by omega, by omega⟩

theorem nextDay_iter_prevDay_iter (k : Nat) : ∀ d : Date, d.Valid → k ≤ d.year →
    nextDay^[k] (prevDay^[k] d) = d := by
  induction k with
  | zero => intro d h hk; rfl
  | succ k ih =>
    intro d h hk
    rw [Function.iterate_succ_apply prevDay, Function.iterate_succ_apply' nextDay]
    obtain ⟨h1, h2⟩ := prevDay_year_bounds d
    rw [ih (prevDay d) (prevDay_valid h) (by omega)]
    exact nextDay_prevDay h (by omega)

theorem prevDay_iter_nextDay_iter (k : Nat) : ∀ d : Date, d.Valid →
    prevDay^[k] (nextDay^[k] d) = d := by
  induction k with
  | zero => intro d h; rfl
  | succ k ih =>
    intro d h
    rw [Function.iterate_succ_apply' nextDay, Function.iterate_succ_apply prevDay]
    rw [prevDay_nextDay ((nextDay_iter_valid k d h).1)]
    exact ih d h

theorem date_to_int_prevDay_iter_le (k : Nat) : ∀ d : Date, d.Valid → k ≤ d.year →
    date_to_int (prevDay^[k] d) ≤ date_to_int d := by
  induction k with
  | zero => intro d h hk; exact le_refl _
  | succ k ih =>
    intro d h hk
    rw [Function.iterate_succ_apply prevDay]
    obtain ⟨h1, h2⟩ := prevDay_year_bounds d
    calc date_to_int (prevDay^[k] (prevDay d)) ≤ date_to_int (prevDay d) :=
          ih (prevDay d) (prevDay_valid h) (by omega)
      _ ≤ date_to_int d := le_of_lt (date_to_int_prevDay_lt h (by omega))

theorem date_to_int_le_nextDay_iter (k : Nat) : ∀ d : Date, d.Valid →
    date_to_int d ≤ date_to_int (nextDay^[k] d) := by
  induction k with
  | zero => intro d h; exact le_refl _
  | succ k ih =>
    intro d h
    rw [Function.iterate_succ_apply nextDay]
    calc date_to_int d ≤ date_to_int (nextDay d) := le_of_lt (date_to_int_lt_nextDay h)
      _ ≤ date_to_int (nextDay^[k] (nextDay d)) := ih (nextDay d) (nextDay_valid h)

theorem int_to_date_date_to_int {d : Date} (h : d.Valid) (h1 : 1000 ≤ d.year)
    (h2 : d.year ≤ 9999) : int_to_date (date_to_int d) = some d := by
  obtain ⟨y, m, dd⟩ := d
  obtain ⟨hm1, hm2, hd1, hd2⟩ : 1 ≤ m ∧ m ≤ 12 ∧ 1 ≤ dd ∧ dd ≤ daysInMonth y m := h
  simp only at h1 h2
  have h31 : dd ≤ 31 := le_trans hd2 (daysInMonth_le y m)
  unfold int_to_date date_to_int
  simp only
  rw [if_pos (by constructor <;> omega)]
  have ey : (((y : Int) * 10000 + (m : Int) * 100 + (dd : Int)) / 10000).toNat = y := by
    omega
  have em : ((((y : Int) * 10000 + (m : Int) * 100 + (dd : Int)) / 100) % 100).toNat = m := by
    omega
  have ed : (((y : Int) * 10000 + (m : Int) * 100 + (dd : Int)) % 100).toNat = dd := by
    omega
  rw [ey, em, ed]
  rw [if_pos ⟨hm1, hm2, hd1, hd2⟩]

/-- C5: the window calculator derives `start_key`/`end_key`/`today_key`
as the YYYYMMDD encodings of exactly fourteen calendar days before and
after today and today itself; the encoding round-trips (decoding each
produced key recovers the calendar date), and the keys are ordered
`start_key ≤ today_key ≤ end_key`.  The hypotheses restrict to dates
whose whole window carries four-digit years, the domain on which a
YYYYMMDD key is well-defined. -/
theorem C5_window_and_roundtrip (d : Date) (h : d.Valid) (hy1 : 1014 ≤ d.year)
    (hy2 : d.year ≤ 9985) :
    computeWindow d =
      (date_to_int (prevDay^[14] d), date_to_int (nextDay^[14] d), date_to_int d) ∧
    int_to_date (computeWindow d).2.2 = some d ∧
    int_to_date (computeWindow d).1 = some (prevDay^[14] d) ∧
    int_to_date (computeWindow d).2.1 = some (nextDay^[14] d) ∧
    nextDay^[14] (prevDay^[14] d) = d ∧
    prevDay^[14] (nextDay^[14] d) = d ∧
    (computeWindow d).1 ≤ (computeWindow d).2.2 ∧
    (computeWindow d).2.2 ≤ (computeWindow d).2.1 := by
  obtain ⟨hpv, hple, hpge⟩ := prevDay_iter_valid 14 d h
  obtain ⟨hnv, hnge, hnle⟩ := nextDay_iter_valid 14 d h
  refine ⟨rfl, int_to_date_date_to_int h (by omega) (by omega), ?_, ?_, ?_, ?_, ?_, ?_⟩
  · exact int_to_date_date_to_int hpv (by omega) (by omega)
  · exact int_to_date_date_to_int hnv (by omega) (by omega)
  · exact nextDay_iter_prevDay_iter 14 d h (by omega)
  · exact prevDay_iter_nextDay_iter 14 d h
  · exact date_to_int_prevDay_iter_le 14 d h (by omega)
  · exact date_to_int_le_nextDay_iter 14 d h

/-- C5 witness: the window around 2026-10-12. -/
theorem C5_window_and_roundtrip_witness :
    computeWindow ⟨2026, 10, 12⟩ = (20260928, 20261026, 20261012) ∧
    int_to_date 20261012 = some ⟨2026, 10, 12⟩ := by
  have H := C5_window_and_roundtrip ⟨2026, 10, 12⟩ (by decide) (by decide) (by decide)
  refine ⟨by decide, ?_⟩
  have h2 := H.2.1
  rwa [show (computeWindow ⟨2026, 10, 12⟩).2.2 = 20261012 from by decide] at h2
